import Mathlib

/-!
# redispipeline: connection supervision and pipelined SETEX

A shallow embedding of `src/redis/redis.go` (package `redis`): the registry of
pools, host configs and circuit breakers, `New`, `getConnection`,
`SetexMultiple` and `Setex`.

Conventions of the embedding.

* The three package-level concurrent maps (`Pool.DBs`, `hosts`, `breakerCmap`)
  are association lists keyed by the host name; the calls are sequential.
  Every method is invoked on the single package value `Pool`, so the receiver
  field `r.DBs` and `Pool.DBs` are the same map.
* A `*redigo.Pool` is an index into the list of pools allocated so far, a
  `redigo.Conn` is the serial number of the borrow that produced it.
* What the network answers (the PING error, the error of closing a pool, the
  replies of a pipeline) and the clock are inputs of each call.
* Every call made on a pool or on a connection is appended to `World.trace`, in
  program order. A dial can only happen inside `Pool.Get`, so a trace without a
  `poolGet` entry has no dial.
-/

namespace Redispipeline

/-! ## Data model -/

/-- Options of `redis.go:20`; Go `int` fields are carried as integers. -/
structure Options where
  MaxIdleConn : Int
  MaxActiveConn : Int
  Timeout : Int
  Wait : Bool
deriving DecidableEq, Repr

/-- The struct `config` of `redis.go:28`. -/
structure config where
  Address : String
  Network : String
  Option : Options
deriving DecidableEq, Repr

/-- Two's complement wrap of a 64 bit signed product (`time.Duration` is an `int64`). -/
def wrapInt64 (x : Int) : Int := (x + 2 ^ 63) % 2 ^ 64 - 2 ^ 63

/-- The constant `time.Second`, in nanoseconds. -/
def Second : Nat := 1000000000

/-- The expression `time.Duration(t) * time.Second`. -/
def secondsDuration (t : Int) : Int := wrapInt64 (t * (Second : Int))

/-- The fields of a `redigo.Pool` literal that this package sets; `dialNetwork` and
`dialAddress` are the two values captured by the `Dial` closure. -/
structure RedigoPool where
  MaxIdle : Int
  MaxActive : Int
  IdleTimeout : Int
  dialNetwork : String
  dialAddress : String
deriving DecidableEq, Repr

/-- Calls made on pools and connections, as they appear in the trace. -/
inductive Event where
  | poolGet (pool conn : Nat)
  | poolClose (pool : Nat)
  | connDo (conn : Nat) (cmd : String) (args : List String)
  | connSend (conn : Nat) (cmd : String) (args : List String)
  | connFlush (conn : Nat)
  | connReceive (conn : Nat)
  | connClose (conn : Nat)
deriving DecidableEq, Repr

/-- The error values the package produces or passes on. -/
inductive Error where
  | ErrBreakerOpen
  | noConnectionMap (dbname : String)
  | noConnectionInfo (dbname : String)
  | poolClose (msg : String)
  | noNewConnectionMap (dbname : String)
  | failedToObtain (dbname key : String)
  | failedToObtainBatch (dbname : String) (data : List (String × String))
  | reply (msg : String)
deriving DecidableEq, Repr

/-! ## The concurrent map, sequentially -/

/-- The method `Get` of the concurrent map. -/
def cmapGet {α : Type} : List (String × α) → String → Option α
  | [], _ => none
  | (k', v) :: rest, k => if k' = k then some v else cmapGet rest k

/-- The method `Remove` of the concurrent map. -/
def cmapRemove {α : Type} : List (String × α) → String → List (String × α)
  | [], _ => []
  | (k', v) :: rest, k => if k' = k then cmapRemove rest k else (k', v) :: cmapRemove rest k

/-- The method `Set` of the concurrent map: the entry of `k` is overwritten. -/
def cmapSet {α : Type} (m : List (String × α)) (k : String) (v : α) : List (String × α) :=
  (k, v) :: cmapRemove m k

/-- In-place mutation of the object stored under `k` (the maps hold pointers). -/
def cmapStore {α : Type} : List (String × α) → String → α → List (String × α)
  | [], _, _ => []
  | (k', v') :: rest, k, v =>
    if k' = k then (k', v) :: rest else (k', v') :: cmapStore rest k v

/-! ## The circuit breaker -/

/-- Modelled from the spec: the three states of the breaker (section 3). -/
inductive BreakerState where
  | closed
  | open
  | halfOpen
deriving DecidableEq, Repr

/-- Modelled from the spec: the breaker type of the imported package
`github.com/eapache/go-resiliency/breaker` (`redis.go:8`) is not under `src/`.
The fields are the parameters of spec section 4.2 in the order of the
constructor call `breaker.New(10, 2, 10*time.Second)` (failure threshold,
success-to-close threshold, cooldown), the state, the count of consecutive
failures, the count of successes since the cooldown elapsed, and the time of
the last trip. -/
structure Breaker where
  errorThreshold : Nat
  successThreshold : Nat
  timeout : Nat
  state : BreakerState
  errors : Nat
  successes : Nat
  trippedAt : Nat
deriving DecidableEq, Repr

/-- Modelled from the spec: the constructor of the breaker; a breaker starts closed. -/
def Breaker.New (errorThreshold successThreshold timeout : Nat) : Breaker :=
  { errorThreshold := errorThreshold, successThreshold := successThreshold,
    timeout := timeout, state := .closed, errors := 0, successes := 0, trippedAt := 0 }

/-- Modelled from the spec: a state change of the breaker resets both counters. -/
def Breaker.changeState (b : Breaker) (s : BreakerState) : Breaker :=
  { b with state := s, errors := 0, successes := 0 }

/-- Modelled from the spec: open to half-open "automatically after T has elapsed since
tripping", evaluated lazily at access time against the recorded trip time. -/
def Breaker.observe (b : Breaker) (now : Nat) : Breaker :=
  if b.state = .open ∧ b.trippedAt + b.timeout ≤ now then b.changeState .halfOpen else b

/-- Modelled from the spec: the transitions of section 4.2 on the outcome of one run.
Closed: a failure is counted and the breaker opens at the failure threshold, a
success ends the run of consecutive failures. Half-open: a failure re-opens
the breaker with a fresh cooldown, a success is counted and the breaker closes
at the success threshold. -/
def Breaker.processResult (b : Breaker) (now : Nat) (ok : Bool) : Breaker :=
  match ok, b.state with
  | true, .halfOpen =>
    if b.successes + 1 = b.successThreshold then b.changeState .closed
    else { b with successes := b.successes + 1 }
  | true, .closed => { b with errors := 0 }
  | true, .open => b
  | false, .closed =>
    if b.errors + 1 = b.errorThreshold then { b.changeState .open with trippedAt := now }
    else { b with errors := b.errors + 1 }
  | false, .halfOpen => { b.changeState .open with trippedAt := now }
  | false, .open => b

/-- Modelled from the spec: the method `Run` of the breaker. While the breaker is open and
the cooldown has not elapsed the work is not run and `ErrBreakerOpen` is
returned; otherwise the work runs once and its outcome is recorded. -/
def Breaker.Run {σ : Type} (b : Breaker) (now : Nat) (work : σ → Option Error × σ) (s : σ) :
    Option Error × Breaker × σ :=
  let b1 := b.observe now
  match b1.state with
  | .open => (some .ErrBreakerOpen, b1, s)
  | _ =>
    let r := work s
    (r.1, b1.processResult now r.1.isNone, r.2)

/-! ## The registry -/

/-- The package-level state: the three maps, the pools and connections created so
far, and the trace of calls made on them. -/
structure World where
  DBs : List (String × Nat)
  hosts : List (String × config)
  breakerCmap : List (String × Breaker)
  pools : List RedigoPool
  conns : Nat
  trace : List Event
deriving DecidableEq, Repr

/-- The state after `init()` of `redis.go:38`. -/
def World.init : World :=
  { DBs := [], hosts := [], breakerCmap := [], pools := [], conns := 0, trace := [] }

/-- The function `New` of `redis.go:43`; `customOption` is the variadic argument. -/
def New (w : World) (hostName hostAddress network : String) (customOption : List Options) :
    World :=
  let opt : Options :=
    match customOption with
    | [] => { MaxIdleConn := 10, MaxActiveConn := 1000, Timeout := 1, Wait := false }
    | o :: _ => o
  let pool : RedigoPool :=
    { MaxIdle := opt.MaxIdleConn, MaxActive := opt.MaxActiveConn,
      IdleTimeout := secondsDuration opt.Timeout,
      dialNetwork := network, dialAddress := hostAddress }
  let cfg : config :=
    { Address := hostAddress, Network := network,
      Option := { MaxActiveConn := opt.MaxActiveConn, MaxIdleConn := opt.MaxIdleConn,
                  Timeout := opt.Timeout, Wait := true } }
  { w with
    DBs := cmapSet w.DBs hostName w.pools.length,
    pools := w.pools ++ [pool],
    hosts := cmapSet w.hosts hostName cfg }

/-- What the outside answers during one `getConnection` call: the clock in nanoseconds,
the error of `rdsConn.Do("PING")` and the error of `redisPool.Close()` (`none` is
`nil`). -/
structure Link where
  now : Nat
  pingErr : Option String
  poolCloseErr : Option String
deriving DecidableEq, Repr

/-- The closure passed to `cb.Run` in `getConnection` (`redis.go:91-144`). The result
is the returned error, the final value of the captured variable `rdsConn`, and
the state. -/
def acquire (w : World) (dbname : String) (l : Link) : Option Error × Option Nat × World :=
  match cmapGet w.DBs dbname with
  | none => (some (.noConnectionMap dbname), none, w)
  | some redisPool =>
    let rdsConn := w.conns
    let w1 := { w with conns := w.conns + 1,
                       trace := w.trace ++ [.poolGet redisPool rdsConn, .connDo rdsConn "PING" []] }
    match l.pingErr with
    | none => (none, some rdsConn, w1)
    | some _ =>
      let w2 := { w1 with trace := w1.trace ++ [.connClose rdsConn] }
      match cmapGet w2.hosts dbname with
      | none => (some (.noConnectionInfo dbname), some rdsConn, w2)
      | some host =>
        let w3 := { w2 with trace := w2.trace ++ [.poolClose redisPool] }
        match l.poolCloseErr with
        | some e => (some (.poolClose e), some rdsConn, w3)
        | none =>
          let newPool : RedigoPool :=
            { MaxIdle := host.Option.MaxIdleConn, MaxActive := host.Option.MaxActiveConn,
              IdleTimeout := secondsDuration host.Option.Timeout,
              dialNetwork := host.Network, dialAddress := host.Address }
          let w4 := { w3 with DBs := cmapSet (cmapRemove w3.DBs dbname) dbname w3.pools.length,
                              pools := w3.pools ++ [newPool] }
          match cmapGet w4.DBs dbname with
          | none => (some (.noNewConnectionMap dbname), some rdsConn, w4)
          | some p =>
            (none, some w4.conns,
              { w4 with conns := w4.conns + 1, trace := w4.trace ++ [.poolGet p w4.conns] })

/-- Lines 84-88 of `getConnection`: the breaker of `dbname` is looked up, and a new
`breaker.New(10, 2, 10*time.Second)` is stored when there is none. -/
def ensureBreaker (w : World) (dbname : String) : Breaker × World :=
  match cmapGet w.breakerCmap dbname with
  | some circuitbreaker => (circuitbreaker, w)
  | none =>
    let circuitbreaker := Breaker.New 10 2 (10 * Second)
    (circuitbreaker, { w with breakerCmap := cmapSet w.breakerCmap dbname circuitbreaker })

/-- The method `getConnection` of `redis.go:81`: the returned connection (`none` is the
nil interface) and the state after the call. The closure starts from
`rdsConn = nil`; the breaker object is mutated in place by `Run`. -/
def getConnection (w : World) (dbname : String) (l : Link) : Option Nat × World :=
  let e := ensureBreaker w dbname
  let r := e.1.Run l.now
    (fun (s : Option Nat × World) =>
      let a := acquire s.2 dbname l
      (a.1, (a.2.1, a.2.2)))
    (none, e.2)
  (r.2.2.1, { r.2.2.2 with breakerCmap := cmapStore r.2.2.2.breakerCmap dbname r.2.1 })

/-! ## The two commands -/

/-- What the outside answers during one `SetexMultiple` call. `writeOrder` and
`readOrder` are the enumerations of the map `data` by the first and by the second
`range` loop (Go leaves the iteration order of a map unspecified, and it may
differ from one loop to the next). `replyTo key` is the outcome of
`redigo.String(conn.Receive())` on the reply to the request queued for `key`:
`some s` when it decodes to `s`, `none` when the error is not nil. -/
structure Batch where
  link : Link
  writeOrder : List (String × String)
  readOrder : List (String × String)
  replyTo : String → Option String

/-- The write loop of `redis.go:167-169`: one `Send` per enumerated entry. -/
def writeLoop (conn : Nat) (expString : String) : List (String × String) → List Event
  | [] => []
  | (key, val) :: rest =>
    .connSend conn "SETEX" [key, val, expString] :: writeLoop conn expString rest

/-- The read loop of `redis.go:171-177`. The second argument is the queue of replies
still to be received, oldest first; the result is the map `res` and the calls
made. A `Receive` with nothing pending is an error. -/
def readLoop (conn : Nat) :
    List (String × String) → List (Option String) → List (String × String) →
      List (String × String) × List Event
  | [], _, res => (res, [])
  | (key, _) :: rest, replies, res =>
    let r := readLoop conn rest replies.tail
      (match replies.head? with
       | some (some resultKey) => cmapSet res key resultKey
       | _ => res)
    (r.1, .connReceive conn :: r.2)

/-- The method `SetexMultiple` of `redis.go:159`: the pair `(res, err)` and the state
after the call. Replies come back in the order in which the requests were
queued. -/
def SetexMultiple (w : World) (dbname : String) (data : List (String × String))
    (expired : Int) (b : Batch) : (List (String × String) × Option Error) × World :=
  let res : List (String × String) := []
  let expString := toString expired
  let g := getConnection w dbname b.link
  match g.1 with
  | none => ((res, some (.failedToObtainBatch dbname data)), g.2)
  | some conn =>
    let sends := writeLoop conn expString b.writeOrder
    let replies := b.writeOrder.map (fun kv => b.replyTo kv.1)
    let r := readLoop conn b.readOrder replies res
    ((r.1, none),
      { g.2 with trace := g.2.trace ++ sends ++ [.connFlush conn] ++ r.2 ++ [.connClose conn] })

/-- The method `Setex` of `redis.go:181`; `reply` is the outcome of `redigo.String` on the
reply of the command. -/
def Setex (w : World) (dbname key value : String) (expired : Int) (l : Link)
    (reply : Except String String) : (String × Option Error) × World :=
  let g := getConnection w dbname l
  match g.1 with
  | some conn =>
    let w1 := { g.2 with
      trace := g.2.trace ++ [.connDo conn "SETEX" [key, value, toString expired],
                             .connClose conn] }
    match reply with
    | .ok s => ((s, none), w1)
    | .error e => (("", some (.reply e)), w1)
  | none => (("", some (.failedToObtain dbname key)), g.2)

/-- The method `GetConnection` of `redis.go:155`. -/
def GetConnection (w : World) (dbname : String) (l : Link) : Option Nat × World :=
  getConnection w dbname l

/-! ## Sequences of calls -/

/-- Consecutive `getConnection` calls for one host, one per element of the list; the
state after the last one. -/
def getConnections (w : World) (dbname : String) : List Link → World
  | [] => w
  | l :: ls => getConnections (getConnection w dbname l).2 dbname ls

/-- Whether in a run of consecutive `getConnection` calls every call meets an acquire
body that returns an error. -/
def allBodiesFail (w : World) (dbname : String) : List Link → Bool
  | [] => true
  | l :: ls =>
    (acquire w dbname l).1.isSome && allBodiesFail (getConnection w dbname l).2 dbname ls

/-- One call of the exported interface of the package. -/
inductive Call where
  | New (hostName hostAddress network : String) (customOption : List Options)
  | GetConnection (dbname : String) (l : Link)
  | SetexMultiple (dbname : String) (data : List (String × String)) (expired : Int)
      (b : Batch)
  | Setex (dbname key value : String) (expired : Int) (l : Link)
      (reply : Except String String)

/-- The state after one call. -/
def Call.run (w : World) : Call → World
  | .New hostName hostAddress network customOption =>
    Redispipeline.New w hostName hostAddress network customOption
  | .GetConnection dbname l => (Redispipeline.GetConnection w dbname l).2
  | .SetexMultiple dbname data expired b =>
    (Redispipeline.SetexMultiple w dbname data expired b).2
  | .Setex dbname key value expired l reply =>
    (Redispipeline.Setex w dbname key value expired l reply).2

/-- The state after a sequence of calls, made one after the other. -/
def runCalls (w : World) : List Call → World
  | [] => w
  | c :: cs => runCalls (Call.run w c) cs

/-- Whether a call registers the host name `hostName`. -/
def Call.registers (hostName : String) : Call → Bool
  | .New h _ _ _ => h == hostName
  | _ => false

/-- Every stored breaker has the parameters of the constructor call of
`redis.go:86`: failure threshold 10, success threshold 2, cooldown 10 s. -/
def BreakersAsConstructed (w : World) : Prop :=
  ∀ (d : String) (b : Breaker), cmapGet w.breakerCmap d = some b →
    b.errorThreshold = 10 ∧ b.successThreshold = 2 ∧ b.timeout = 10 * Second

/-- The host `k` has the config `cfg` and a current pool. -/
def inForce (w : World) (k : String) (cfg : config) : Prop :=
  cmapGet w.hosts k = some cfg ∧ (cmapGet w.DBs k).isSome

/-! ## Scenarios -/

/-- A link on which the PING fails and the old pool closes without error. -/
def linkDown (now : Nat) : Link := { now := now, pingErr := some "EOF", poolCloseErr := none }

/-- A healthy link. -/
def linkUp (now : Nat) : Link := { now := now, pingErr := none, poolCloseErr := none }

/-- The registration of `src/main.go:18` with the default options. -/
def registeredLocal : World := New World.init "redis-local" "127.0.0.1:6379" "tcp" []

/-- Ten consecutive `getConnection` calls on the registered host, the PING failing in
each of them. -/
def tenFailedProbes : World :=
  getConnections registeredLocal "redis-local" (List.replicate 10 (linkDown 0))

/-- A link on which the PING fails and closing the old pool fails too. -/
def linkStuck (now : Nat) : Link :=
  { now := now, pingErr := some "EOF", poolCloseErr := some "close failed" }

/-- Ten `getConnection` calls for a name that is not registered yet (each acquire body
returns an error), then the registration of that name. -/
def trippedThenRegistered : World :=
  New (getConnections World.init "redis-local" (List.replicate 10 (linkUp 0)))
    "redis-local" "127.0.0.1:6379" "tcp" []

/-- A pool stored under a name that has no host config: the state after
`Pool.DBs.Set("redis-local", pool)` done by a caller of the package (`Pool` and its
field `DBs` are exported), with no call of `New`. -/
def poolWithoutConfig : World :=
  { World.init with
    DBs := [("redis-local", 0)],
    pools := [{ MaxIdle := 10, MaxActive := 1000, IdleTimeout := 1000000000,
                dialNetwork := "tcp", dialAddress := "127.0.0.1:6379" }] }

/-- A batch of two keys that the write loop enumerates as `a, b` and the read loop as
`b, a`; the reply to the request of `a` does not decode, the reply to the
request of `b` is `OK`. -/
def crossedBatch : Batch :=
  { link := linkUp 0,
    writeOrder := [("a", "1"), ("b", "2")],
    readOrder := [("b", "2"), ("a", "1")],
    replyTo := fun key => if key = "a" then none else some "OK" }

/-! # Lemmas -/

/-! ## The concurrent map: lookup after an update -/

theorem cmapGet_cmapRemove_self {α : Type} (m : List (String × α)) (k : String) :
    cmapGet (cmapRemove m k) k = none := by
  induction m with
  | nil => rfl
  | cons e rest ih =>
    obtain ⟨k', v⟩ := e
    by_cases h : k' = k <;> simp [cmapRemove, cmapGet, h, ih]

theorem cmapGet_cmapRemove_ne {α : Type} (m : List (String × α)) (k k' : String) (h : k ≠ k') :
    cmapGet (cmapRemove m k) k' = cmapGet m k' := by
  induction m with
  | nil => rfl
  | cons e rest ih =>
    obtain ⟨k1, v⟩ := e
    by_cases h1 : k1 = k
    · subst h1
      simp [cmapRemove, cmapGet, h, ih]
    · by_cases h2 : k1 = k'
      · subst h2
        simp [cmapRemove, cmapGet, h1]
      · simp [cmapRemove, cmapGet, h1, h2, ih]

theorem cmapGet_cmapSet_self {α : Type} (m : List (String × α)) (k : String) (v : α) :
    cmapGet (cmapSet m k v) k = some v := by
  simp [cmapSet, cmapGet]

theorem cmapGet_cmapSet_ne {α : Type} (m : List (String × α)) (k k' : String) (v : α)
    (h : k ≠ k') : cmapGet (cmapSet m k v) k' = cmapGet m k' := by
  simp [cmapSet, cmapGet, h, cmapGet_cmapRemove_ne m k k' h]

theorem cmapStore_of_get {α : Type} (m : List (String × α)) (k : String) (v : α)
    (h : cmapGet m k = some v) : cmapStore m k v = m := by
  induction m with
  | nil => rfl
  | cons e rest ih =>
    obtain ⟨k', v'⟩ := e
    by_cases hk : k' = k
    · simp [cmapGet, hk] at h
      simp [cmapStore, hk, h]
    · simp [cmapGet, hk] at h
      simp [cmapStore, hk, ih h]

theorem cmapGet_cmapStore_self {α : Type} (m : List (String × α)) (k : String) (v v0 : α)
    (h : cmapGet m k = some v0) : cmapGet (cmapStore m k v) k = some v := by
  induction m with
  | nil => simp [cmapGet] at h
  | cons e rest ih =>
    obtain ⟨k', v'⟩ := e
    by_cases hk : k' = k
    · simp [cmapStore, cmapGet, hk]
    · simp [cmapGet, hk] at h
      simp [cmapStore, cmapGet, hk, ih h]

theorem cmapGet_cmapStore_ne {α : Type} (m : List (String × α)) (k k' : String) (v : α)
    (h : k ≠ k') : cmapGet (cmapStore m k v) k' = cmapGet m k' := by
  induction m with
  | nil => rfl
  | cons e rest ih =>
    obtain ⟨k1, v1⟩ := e
    by_cases hk : k1 = k
    · subst hk
      simp [cmapStore, cmapGet, h]
    · by_cases h2 : k1 = k'
      · subst h2
        simp [cmapStore, cmapGet, hk]
      · simp [cmapStore, cmapGet, hk, h2, ih]

/-! ## The breaker -/

theorem Breaker.observe_of_cooling (b : Breaker) (now : Nat) (h : now < b.trippedAt + b.timeout) :
    b.observe now = b := by
  unfold Breaker.observe
  rw [if_neg]
  intro h1
  omega

theorem Breaker.observe_of_not_open (b : Breaker) (now : Nat) (h : b.state ≠ .open) :
    b.observe now = b := by
  unfold Breaker.observe
  rw [if_neg]
  intro h1
  exact h h1.1

theorem Breaker.Run_open {σ : Type} (b : Breaker) (now : Nat) (work : σ → Option Error × σ)
    (s : σ) (h : (b.observe now).state = .open) :
    b.Run now work s = (some .ErrBreakerOpen, b.observe now, s) := by
  simp [Breaker.Run, h]

theorem Breaker.Run_not_open {σ : Type} (b : Breaker) (now : Nat)
    (work : σ → Option Error × σ) (s : σ) (h : (b.observe now).state ≠ .open) :
    b.Run now work s =
      ((work s).1, (b.observe now).processResult now (work s).1.isNone, (work s).2) := by
  unfold Breaker.Run
  cases hs : (b.observe now).state with
  | «open» => exact absurd hs h
  | closed => simp [hs]
  | halfOpen => simp [hs]

/-! ## The acquire body, case by case -/

theorem acquire_breakerCmap_irrelevant (w : World) (m : List (String × Breaker)) (d : String)
    (l : Link) :
    acquire { w with breakerCmap := m } d l =
      ((acquire w d l).1, (acquire w d l).2.1, { (acquire w d l).2.2 with breakerCmap := m }) := by
  unfold acquire
  simp only
  split
  · rfl
  · split
    · rfl
    · split
      · rfl
      · split
        · rfl
        · split <;> rfl

theorem acquire_breakerCmap (w : World) (d : String) (l : Link) :
    (acquire w d l).2.2.breakerCmap = w.breakerCmap := by
  unfold acquire
  simp only
  split
  · rfl
  · split
    · rfl
    · split
      · rfl
      · split
        · rfl
        · split <;> rfl

theorem acquire_hosts (w : World) (d : String) (l : Link) :
    (acquire w d l).2.2.hosts = w.hosts := by
  unfold acquire
  simp only
  split
  · rfl
  · split
    · rfl
    · split
      · rfl
      · split
        · rfl
        · split <;> rfl


theorem acquire_unregistered (w : World) (d : String) (l : Link)
    (h : cmapGet w.DBs d = none) :
    acquire w d l = (some (.noConnectionMap d), none, w) := by
  simp [acquire, h]

theorem acquire_ping_ok (w : World) (d : String) (l : Link) (p : Nat)
    (h : cmapGet w.DBs d = some p) (hp : l.pingErr = none) :
    acquire w d l =
      (none, some w.conns,
        { w with conns := w.conns + 1,
                 trace := w.trace ++ [.poolGet p w.conns, .connDo w.conns "PING" []] }) := by
  simp [acquire, h, hp]

theorem acquire_no_config (w : World) (d : String) (l : Link) (p : Nat) (e : String)
    (h : cmapGet w.DBs d = some p) (hp : l.pingErr = some e) (hc : cmapGet w.hosts d = none) :
    acquire w d l =
      (some (.noConnectionInfo d), some w.conns,
        { w with conns := w.conns + 1,
                 trace := w.trace ++ [.poolGet p w.conns, .connDo w.conns "PING" [],
                                      .connClose w.conns] }) := by
  simp [acquire, h, hp, hc]

theorem acquire_close_error (w : World) (d : String) (l : Link) (p : Nat) (e ce : String)
    (host : config)
    (h : cmapGet w.DBs d = some p) (hp : l.pingErr = some e)
    (hc : cmapGet w.hosts d = some host) (hx : l.poolCloseErr = some ce) :
    acquire w d l =
      (some (.poolClose ce), some w.conns,
        { w with conns := w.conns + 1,
                 trace := w.trace ++ [.poolGet p w.conns, .connDo w.conns "PING" [],
                                      .connClose w.conns, .poolClose p] }) := by
  simp [acquire, h, hp, hc, hx]

theorem acquire_rebuild (w : World) (d : String) (l : Link) (p : Nat) (e : String)
    (host : config)
    (h : cmapGet w.DBs d = some p) (hp : l.pingErr = some e)
    (hc : cmapGet w.hosts d = some host) (hx : l.poolCloseErr = none) :
    acquire w d l =
      (none, some (w.conns + 1),
        { w with
          DBs := cmapSet (cmapRemove w.DBs d) d w.pools.length,
          pools := w.pools ++
            [{ MaxIdle := host.Option.MaxIdleConn, MaxActive := host.Option.MaxActiveConn,
               IdleTimeout := secondsDuration host.Option.Timeout,
               dialNetwork := host.Network, dialAddress := host.Address }],
          conns := w.conns + 1 + 1,
          trace := w.trace ++ [.poolGet p w.conns, .connDo w.conns "PING" [],
                               .connClose w.conns, .poolClose p,
                               .poolGet w.pools.length (w.conns + 1)] }) := by
  simp [acquire, h, hp, hc, hx, cmapGet_cmapSet_self]

/-! ## `getConnection` through the breaker -/

theorem ensureBreaker_of_some (w : World) (d : String) (b : Breaker)
    (h : cmapGet w.breakerCmap d = some b) : ensureBreaker w d = (b, w) := by
  simp [ensureBreaker, h]

theorem ensureBreaker_of_none (w : World) (d : String) (h : cmapGet w.breakerCmap d = none) :
    ensureBreaker w d =
      (Breaker.New 10 2 (10 * Second),
        { w with breakerCmap := cmapSet w.breakerCmap d (Breaker.New 10 2 (10 * Second)) }) := by
  simp [ensureBreaker, h]

theorem ensureBreaker_world (w : World) (d : String) :
    (ensureBreaker w d).2 = { w with breakerCmap := (ensureBreaker w d).2.breakerCmap } := by
  unfold ensureBreaker
  split <;> rfl

theorem ensureBreaker_get (w : World) (d : String) :
    cmapGet (ensureBreaker w d).2.breakerCmap d = some (ensureBreaker w d).1 := by
  cases h : cmapGet w.breakerCmap d with
  | none => simp [ensureBreaker_of_none w d h, cmapGet_cmapSet_self]
  | some b => simp [ensureBreaker_of_some w d b h, h]

theorem getConnection_open (w : World) (d : String) (l : Link)
    (h : ((ensureBreaker w d).1.observe l.now).state = .open) :
    getConnection w d l =
      (none,
        { w with
          breakerCmap :=
            cmapStore (ensureBreaker w d).2.breakerCmap d
              ((ensureBreaker w d).1.observe l.now) }) := by
  unfold getConnection
  simp only
  rw [Breaker.Run_open _ _ _ _ h]
  simp only
  rw [ensureBreaker_world w d]

theorem getConnection_run (w : World) (d : String) (l : Link)
    (h : ((ensureBreaker w d).1.observe l.now).state ≠ .open) :
    getConnection w d l =
      ((acquire w d l).2.1,
        { (acquire w d l).2.2 with
          breakerCmap :=
            cmapStore (ensureBreaker w d).2.breakerCmap d
              (((ensureBreaker w d).1.observe l.now).processResult l.now
                (acquire w d l).1.isNone) }) := by
  unfold getConnection
  simp only
  rw [Breaker.Run_not_open _ _ _ _ h]
  simp only
  rw [ensureBreaker_world w d, acquire_breakerCmap_irrelevant]

/-- The breaker stored for `d` after a `getConnection` call. -/
theorem getConnection_breaker (w : World) (d : String) (l : Link) :
    cmapGet (getConnection w d l).2.breakerCmap d =
      some (if ((ensureBreaker w d).1.observe l.now).state = .open
            then (ensureBreaker w d).1.observe l.now
            else ((ensureBreaker w d).1.observe l.now).processResult l.now
              (acquire w d l).1.isNone) := by
  by_cases h : ((ensureBreaker w d).1.observe l.now).state = .open
  · rw [getConnection_open w d l h, if_pos h]
    exact cmapGet_cmapStore_self _ _ _ _ (ensureBreaker_get w d)
  · rw [getConnection_run w d l h, if_neg h]
    exact cmapGet_cmapStore_self _ _ _ _ (ensureBreaker_get w d)

/-! ## The pipeline loops -/

theorem writeLoop_eq_map (conn : Nat) (e : String) (wo : List (String × String)) :
    writeLoop conn e wo = wo.map (fun kv => Event.connSend conn "SETEX" [kv.1, kv.2, e]) := by
  induction wo with
  | nil => rfl
  | cons kv rest ih =>
    obtain ⟨k, v⟩ := kv
    simp [writeLoop, ih]

theorem readLoop_events (conn : Nat) (ro : List (String × String)) :
    ∀ (replies : List (Option String)) (res : List (String × String)),
      (readLoop conn ro replies res).2 = List.replicate ro.length (Event.connReceive conn) := by
  induction ro with
  | nil => intro replies res; rfl
  | cons kv rest ih =>
    intro replies res
    obtain ⟨k, v⟩ := kv
    simp [readLoop, ih, List.replicate_succ]

theorem cmapGet_isSome_iff {α : Type} (m : List (String × α)) (k : String) :
    (cmapGet m k).isSome ↔ k ∈ m.map Prod.fst := by
  induction m with
  | nil => simp [cmapGet]
  | cons e rest ih =>
    obtain ⟨k', v⟩ := e
    by_cases h : k' = k
    · simp [cmapGet, h]
    · have h' : ¬ k = k' := fun h1 => h h1.symm
      simp only [cmapGet, h, if_false, ih, List.map_cons, List.mem_cons, h', false_or]

theorem cmapGet_cmapSet {α : Type} (m : List (String × α)) (k k' : String) (v : α) :
    cmapGet (cmapSet m k v) k' = if k = k' then some v else cmapGet m k' := by
  by_cases h : k = k'
  · subst h; simp [cmapGet_cmapSet_self]
  · simp [h, cmapGet_cmapSet_ne m k k' v h]

theorem readLoop_keys (conn : Nat) (ro : List (String × String)) :
    ∀ (replies : List (Option String)) (res : List (String × String)) (k : String),
      (cmapGet (readLoop conn ro replies res).1 k).isSome →
        (cmapGet res k).isSome ∨ k ∈ ro.map Prod.fst := by
  induction ro with
  | nil => intro replies res k h; exact Or.inl h
  | cons kv rest ih =>
    intro replies res k h
    obtain ⟨key, v⟩ := kv
    simp only [readLoop] at h
    rcases ih _ _ k h with h1 | h1
    · by_cases hk : key = k
      · right; simp [hk]
      · left
        revert h1
        split
        · rw [cmapGet_cmapSet_ne _ _ _ _ hk]; exact id
        · exact id
    · right
      simp [h1]

theorem Breaker.processResult_fail_closed (b : Breaker) (now : Nat) (hc : b.state = .closed)
    (h : b.errors + 1 ≠ b.errorThreshold) :
    b.processResult now false = { b with errors := b.errors + 1 } := by
  obtain ⟨et, st, t, s, e, su, ta⟩ := b
  simp only at hc h
  subst hc
  simp [Breaker.processResult, h]

theorem Breaker.processResult_fail_closed_trip (b : Breaker) (now : Nat)
    (hc : b.state = .closed) (h : b.errors + 1 = b.errorThreshold) :
    b.processResult now false = { b.changeState .open with trippedAt := now } := by
  obtain ⟨et, st, t, s, e, su, ta⟩ := b
  simp only at hc h
  subst hc
  simp [Breaker.processResult, h]

theorem Breaker.processResult_fail_halfOpen (b : Breaker) (now : Nat)
    (hc : b.state = .halfOpen) :
    b.processResult now false = { b.changeState .open with trippedAt := now } := by
  obtain ⟨et, st, t, s, e, su, ta⟩ := b
  simp only at hc
  subst hc
  simp [Breaker.processResult]

theorem Breaker.processResult_ok_closed (b : Breaker) (now : Nat) (hc : b.state = .closed) :
    b.processResult now true = { b with errors := 0 } := by
  obtain ⟨et, st, t, s, e, su, ta⟩ := b
  simp only at hc
  subst hc
  simp [Breaker.processResult]

theorem Breaker.processResult_ok_halfOpen (b : Breaker) (now : Nat) (hc : b.state = .halfOpen)
    (h : b.successes + 1 ≠ b.successThreshold) :
    b.processResult now true = { b with successes := b.successes + 1 } := by
  obtain ⟨et, st, t, s, e, su, ta⟩ := b
  simp only at hc h
  subst hc
  simp [Breaker.processResult, h]

theorem Breaker.processResult_ok_halfOpen_close (b : Breaker) (now : Nat)
    (hc : b.state = .halfOpen) (h : b.successes + 1 = b.successThreshold) :
    b.processResult now true = b.changeState .closed := by
  obtain ⟨et, st, t, s, e, su, ta⟩ := b
  simp only at hc h
  subst hc
  simp [Breaker.processResult, h]

theorem Breaker.observe_of_elapsed (b : Breaker) (now : Nat) (ho : b.state = .open)
    (h : b.trippedAt + b.timeout ≤ now) : b.observe now = b.changeState .halfOpen := by
  unfold Breaker.observe
  rw [if_pos ⟨ho, h⟩]

theorem getConnection_of_open_cooling (w : World) (d : String) (l : Link) (cb : Breaker)
    (hcb : cmapGet w.breakerCmap d = some cb) (hopen : cb.state = .open)
    (hcool : l.now < cb.trippedAt + cb.timeout) : getConnection w d l = (none, w) := by
  have hobs : cb.observe l.now = cb := Breaker.observe_of_cooling cb l.now hcool
  have hens : ensureBreaker w d = (cb, w) := ensureBreaker_of_some w d cb hcb
  have hst : ((ensureBreaker w d).1.observe l.now).state = .open := by
    rw [hens]; simp only; rw [hobs]; exact hopen
  rw [getConnection_open w d l hst, hens]
  simp only
  rw [hobs, cmapStore_of_get _ _ _ hcb]

theorem ensureBreaker_fst_of_get (w : World) (d : String) (b : Breaker)
    (h : cmapGet w.breakerCmap d = some b) : (ensureBreaker w d).1 = b := by
  rw [ensureBreaker_of_some w d b h]

theorem acquire_error_iff (w : World) (d : String) (l : Link) :
    (acquire w d l).1.isSome ↔
      (cmapGet w.DBs d = none ∨
        (l.pingErr ≠ none ∧ (cmapGet w.hosts d = none ∨ l.poolCloseErr ≠ none))) := by
  cases h : cmapGet w.DBs d with
  | none => simp [acquire_unregistered w d l h]
  | some p =>
    cases hp : l.pingErr with
    | none => simp [acquire_ping_ok w d l p h hp]
    | some e =>
      cases hc : cmapGet w.hosts d with
      | none => simp [acquire_no_config w d l p e h hp hc]
      | some host =>
        cases hx : l.poolCloseErr with
        | none => simp [acquire_rebuild w d l p e host h hp hc hx]
        | some ce => simp [acquire_close_error w d l p e ce host h hp hc hx]

/-- The breaker of `d` after a call that the breaker let through. -/
theorem getConnection_records (w : World) (d : String) (l : Link)
    (h : ((ensureBreaker w d).1.observe l.now).state ≠ .open) :
    (ensureBreaker (getConnection w d l).2 d).1 =
      ((ensureBreaker w d).1.observe l.now).processResult l.now (acquire w d l).1.isNone := by
  apply ensureBreaker_fst_of_get
  rw [getConnection_breaker, if_neg h]

theorem getConnections_append (d : String) (ls : List Link) (l : Link) :
    ∀ w : World, getConnections w d (ls ++ [l]) =
      (getConnection (getConnections w d ls) d l).2 := by
  induction ls with
  | nil => intro w; rfl
  | cons a rest ih => intro w; simp [getConnections, ih]

theorem allBodiesFail_append (d : String) (ls : List Link) (l : Link) :
    ∀ w : World, allBodiesFail w d (ls ++ [l]) =
      (allBodiesFail w d ls && (acquire (getConnections w d ls) d l).1.isSome) := by
  induction ls with
  | nil => intro w; simp [allBodiesFail, getConnections]
  | cons a rest ih => intro w; simp [allBodiesFail, getConnections, ih, Bool.and_assoc]

theorem failing_run_counts (d : String) (ls : List Link) :
    ∀ w : World, allBodiesFail w d ls = true →
      (ensureBreaker w d).1.state = .closed →
      (ensureBreaker w d).1.errors + ls.length < (ensureBreaker w d).1.errorThreshold →
      (ensureBreaker (getConnections w d ls) d).1 =
        { (ensureBreaker w d).1 with errors := (ensureBreaker w d).1.errors + ls.length } := by
  induction ls with
  | nil => intro w _ _ _; rfl
  | cons l rest ih =>
    intro w hf hc hlt
    simp only [allBodiesFail, Bool.and_eq_true] at hf
    simp only [List.length_cons] at hlt
    have hne : (ensureBreaker w d).1.state ≠ .open := by rw [hc]; decide
    have hobs := Breaker.observe_of_not_open (ensureBreaker w d).1 l.now hne
    have hrec := getConnection_records w d l (by rw [hobs]; exact hne)
    have hnone : (acquire w d l).1.isNone = false := by
      cases h : (acquire w d l).1 with
      | none => rw [h] at hf; simp at hf
      | some e => rfl
    rw [hobs, hnone] at hrec
    have hstep := Breaker.processResult_fail_closed (ensureBreaker w d).1 l.now hc (by omega)
    rw [hstep] at hrec
    simp only [getConnections]
    rw [ih (getConnection w d l).2 hf.2 (by rw [hrec]; exact hc) (by rw [hrec]; simp only; omega)]
    rw [hrec]
    simp only [List.length_cons, Breaker.mk.injEq, true_and, and_true]
    omega

theorem ensureBreaker_params (w : World) (d : String) (hw : BreakersAsConstructed w) :
    (ensureBreaker w d).1.errorThreshold = 10 ∧ (ensureBreaker w d).1.successThreshold = 2 ∧
      (ensureBreaker w d).1.timeout = 10 * Second := by
  cases h : cmapGet w.breakerCmap d with
  | none => rw [ensureBreaker_of_none w d h]; exact ⟨rfl, rfl, rfl⟩
  | some b => rw [ensureBreaker_of_some w d b h]; exact hw d b h

theorem breakersAsConstructed_init : BreakersAsConstructed World.init := by
  intro d b h
  simp [World.init, cmapGet] at h

/-- Ten consecutive failing acquire bodies open a breaker that had counted none. -/
theorem ten_failures_trip (w : World) (dbname : String) (ls : List Link) (last : Link)
    (hclosed : (ensureBreaker w dbname).1.state = .closed)
    (hzero : (ensureBreaker w dbname).1.errors = 0)
    (hthr : (ensureBreaker w dbname).1.errorThreshold = 10)
    (hlen : ls.length = 9) (hfail : allBodiesFail w dbname (ls ++ [last]) = true) :
    cmapGet (getConnections w dbname (ls ++ [last])).breakerCmap dbname =
      some { ({ (ensureBreaker w dbname).1 with errors := 9 } : Breaker).changeState .open with
             trippedAt := last.now } := by
  rw [allBodiesFail_append, Bool.and_eq_true] at hfail
  have h9 := failing_run_counts dbname ls w hfail.1 hclosed (by omega)
  rw [hzero, hlen] at h9
  rw [getConnections_append, getConnection_breaker]
  have hc9 : (ensureBreaker (getConnections w dbname ls) dbname).1.state = .closed := by
    rw [h9]; exact hclosed
  have hne : (ensureBreaker (getConnections w dbname ls) dbname).1.state ≠ .open := by
    rw [hc9]; decide
  have hobs := Breaker.observe_of_not_open _ last.now hne
  rw [hobs, if_neg hne]
  have hnone : (acquire (getConnections w dbname ls) dbname last).1.isNone = false := by
    cases h : (acquire (getConnections w dbname ls) dbname last).1 with
    | none => rw [h] at hfail; simp at hfail
    | some e => rfl
  rw [hnone, Breaker.processResult_fail_closed_trip _ _ hc9 (by rw [h9]; simp only; omega), h9]

/-! ## What the calls leave unchanged -/

theorem Breaker.observe_params (b : Breaker) (now : Nat) :
    (b.observe now).errorThreshold = b.errorThreshold ∧
      (b.observe now).successThreshold = b.successThreshold ∧
      (b.observe now).timeout = b.timeout := by
  unfold Breaker.observe Breaker.changeState
  split <;> exact ⟨rfl, rfl, rfl⟩

theorem Breaker.processResult_params (b : Breaker) (now : Nat) (ok : Bool) :
    (b.processResult now ok).errorThreshold = b.errorThreshold ∧
      (b.processResult now ok).successThreshold = b.successThreshold ∧
      (b.processResult now ok).timeout = b.timeout := by
  unfold Breaker.processResult Breaker.changeState
  split
  · split <;> exact ⟨rfl, rfl, rfl⟩
  · exact ⟨rfl, rfl, rfl⟩
  · exact ⟨rfl, rfl, rfl⟩
  · split <;> exact ⟨rfl, rfl, rfl⟩
  · exact ⟨rfl, rfl, rfl⟩
  · exact ⟨rfl, rfl, rfl⟩

theorem getConnection_breakerCmap (w : World) (d : String) (l : Link) :
    (getConnection w d l).2.breakerCmap =
      cmapStore (ensureBreaker w d).2.breakerCmap d
        (if ((ensureBreaker w d).1.observe l.now).state = .open
         then (ensureBreaker w d).1.observe l.now
         else ((ensureBreaker w d).1.observe l.now).processResult l.now
           (acquire w d l).1.isNone) := by
  by_cases h : ((ensureBreaker w d).1.observe l.now).state = .open
  · rw [getConnection_open w d l h, if_pos h]
  · rw [getConnection_run w d l h, if_neg h]

theorem getConnection_breaker_other (w : World) (d d' : String) (l : Link) (h : d ≠ d') :
    cmapGet (getConnection w d l).2.breakerCmap d' = cmapGet w.breakerCmap d' := by
  rw [getConnection_breakerCmap, cmapGet_cmapStore_ne _ _ _ _ h]
  unfold ensureBreaker
  split
  · rfl
  · exact cmapGet_cmapSet_ne _ _ _ _ h

theorem getConnection_hosts (w : World) (d : String) (l : Link) :
    (getConnection w d l).2.hosts = w.hosts := by
  by_cases h : ((ensureBreaker w d).1.observe l.now).state = .open
  · rw [getConnection_open w d l h]
  · rw [getConnection_run w d l h]
    exact acquire_hosts w d l

theorem breakersAsConstructed_getConnection (w : World) (d : String) (l : Link)
    (hw : BreakersAsConstructed w) : BreakersAsConstructed (getConnection w d l).2 := by
  intro d' b hb
  by_cases hd : d = d'
  · subst hd
    rw [getConnection_breaker] at hb
    have hp := ensureBreaker_params w d hw
    have ho := Breaker.observe_params (ensureBreaker w d).1 l.now
    have hr := Breaker.processResult_params ((ensureBreaker w d).1.observe l.now) l.now
      (acquire w d l).1.isNone
    injection hb with hb
    subst hb
    split
    · exact ⟨ho.1.trans hp.1, ho.2.1.trans hp.2.1, ho.2.2.trans hp.2.2⟩
    · exact ⟨hr.1.trans (ho.1.trans hp.1), hr.2.1.trans (ho.2.1.trans hp.2.1),
        hr.2.2.trans (ho.2.2.trans hp.2.2)⟩
  · rw [getConnection_breaker_other w d d' l hd] at hb
    exact hw d' b hb

theorem Setex_world (w : World) (d key value : String) (expired : Int) (l : Link)
    (reply : Except String String) :
    (Setex w d key value expired l reply).2 =
      { (getConnection w d l).2 with trace := (Setex w d key value expired l reply).2.trace } := by
  unfold Setex
  simp only
  split
  · split <;> rfl
  · rfl

theorem SetexMultiple_world (w : World) (d : String) (data : List (String × String))
    (expired : Int) (b : Batch) :
    (SetexMultiple w d data expired b).2 =
      { (getConnection w d b.link).2 with
        trace := (SetexMultiple w d data expired b).2.trace } := by
  unfold SetexMultiple
  simp only
  split <;> rfl

theorem breakersAsConstructed_run (w : World) (c : Call) (hw : BreakersAsConstructed w) :
    BreakersAsConstructed (Call.run w c) := by
  cases c with
  | New h a n o => exact hw
  | GetConnection d l => exact breakersAsConstructed_getConnection w d l hw
  | SetexMultiple d data e b =>
    intro d' cb hcb
    simp only [Call.run] at hcb
    rw [SetexMultiple_world] at hcb
    exact breakersAsConstructed_getConnection w d b.link hw d' cb hcb
  | Setex d k v e l r =>
    intro d' cb hcb
    simp only [Call.run] at hcb
    rw [Setex_world] at hcb
    exact breakersAsConstructed_getConnection w d l hw d' cb hcb

theorem breakersAsConstructed_runCalls (cs : List Call) :
    ∀ w : World, BreakersAsConstructed w → BreakersAsConstructed (runCalls w cs) := by
  induction cs with
  | nil => intro w hw; exact hw
  | cons c rest ih => intro w hw; exact ih _ (breakersAsConstructed_run w c hw)

theorem getConnections_eq_runCalls (d : String) (ls : List Link) :
    ∀ w : World, getConnections w d ls = runCalls w (ls.map (Call.GetConnection d)) := by
  induction ls with
  | nil => intro w; rfl
  | cons l rest ih => intro w; simp [getConnections, runCalls, Call.run, GetConnection, ih]

/-! ## A registration stays in force -/

theorem cmapGet_rebuilt_isSome (m : List (String × Nat)) (d k : String) (n : Nat)
    (h : (cmapGet m k).isSome) : (cmapGet (cmapSet (cmapRemove m d) d n) k).isSome := by
  by_cases hd : d = k
  · subst hd; rw [cmapGet_cmapSet_self]; rfl
  · rw [cmapGet_cmapSet_ne _ _ _ _ hd, cmapGet_cmapRemove_ne _ _ _ hd]; exact h

theorem acquire_DBs_isSome (w : World) (d k : String) (l : Link)
    (h : (cmapGet w.DBs k).isSome) : (cmapGet (acquire w d l).2.2.DBs k).isSome := by
  cases hd : cmapGet w.DBs d with
  | none => rw [acquire_unregistered w d l hd]; exact h
  | some p =>
    cases hp : l.pingErr with
    | none => rw [acquire_ping_ok w d l p hd hp]; exact h
    | some e =>
      cases hc : cmapGet w.hosts d with
      | none => rw [acquire_no_config w d l p e hd hp hc]; exact h
      | some host =>
        cases hx : l.poolCloseErr with
        | none =>
          rw [acquire_rebuild w d l p e host hd hp hc hx]
          exact cmapGet_rebuilt_isSome _ _ _ _ h
        | some ce => rw [acquire_close_error w d l p e ce host hd hp hc hx]; exact h

theorem getConnection_DBs_isSome (w : World) (d k : String) (l : Link)
    (h : (cmapGet w.DBs k).isSome) : (cmapGet (getConnection w d l).2.DBs k).isSome := by
  by_cases ho : ((ensureBreaker w d).1.observe l.now).state = .open
  · rw [getConnection_open w d l ho]; exact h
  · rw [getConnection_run w d l ho]; exact acquire_DBs_isSome w d k l h

theorem inForce_getConnection (w : World) (d k : String) (l : Link) (cfg : config)
    (h : inForce w k cfg) : inForce (getConnection w d l).2 k cfg :=
  ⟨by rw [getConnection_hosts]; exact h.1, getConnection_DBs_isSome w d k l h.2⟩

theorem inForce_run (w : World) (k : String) (cfg : config) (c : Call)
    (hc : Call.registers k c = false) (h : inForce w k cfg) : inForce (Call.run w c) k cfg := by
  cases c with
  | New hn a n o =>
    have hne : hn ≠ k := by
      intro he
      simp [Call.registers, he] at hc
    refine ⟨?_, ?_⟩
    · simp only [Call.run, New]
      rw [cmapGet_cmapSet_ne _ _ _ _ hne]; exact h.1
    · simp only [Call.run, New]
      rw [cmapGet_cmapSet_ne _ _ _ _ hne]; exact h.2
  | GetConnection d l => exact inForce_getConnection w d k l cfg h
  | SetexMultiple d data e b =>
    have := inForce_getConnection w d k b.link cfg h
    unfold inForce at this ⊢
    simp only [Call.run]
    rw [SetexMultiple_world]
    exact this
  | Setex d key v e l r =>
    have := inForce_getConnection w d k l cfg h
    unfold inForce at this ⊢
    simp only [Call.run]
    rw [Setex_world]
    exact this

theorem inForce_runCalls (k : String) (cfg : config) (cs : List Call) :
    ∀ w : World, (∀ c ∈ cs, Call.registers k c = false) → inForce w k cfg →
      inForce (runCalls w cs) k cfg := by
  induction cs with
  | nil => intro w _ h; exact h
  | cons c rest ih =>
    intro w hc h
    exact ih _ (fun c' hc' => hc c' (List.mem_cons_of_mem _ hc'))
      (inForce_run w k cfg c (hc c (List.mem_cons_self _ _)) h)

theorem inForce_New (w0 : World) (hostName hostAddress network : String)
    (customOption : List Options) :
    ∃ cfg : config, inForce (New w0 hostName hostAddress network customOption) hostName cfg ∧
      (New w0 hostName hostAddress network customOption).pools[w0.pools.length]? =
        some { MaxIdle := cfg.Option.MaxIdleConn, MaxActive := cfg.Option.MaxActiveConn,
               IdleTimeout := secondsDuration cfg.Option.Timeout,
               dialNetwork := cfg.Network, dialAddress := cfg.Address } := by
  refine ⟨_, ⟨cmapGet_cmapSet_self _ _ _, ?_⟩, ?_⟩
  · simp only [New]; rw [cmapGet_cmapSet_self]; rfl
  · simp [New]

/-! ## Replies and keys when both loops agree -/

/-- When both loops enumerate the map in the same order, a key is in the result
exactly with the decoded reply to its own request. -/
theorem readLoop_same_order (conn : Nat) (f : String → Option String)
    (ro : List (String × String)) :
    ∀ (res : List (String × String)) (k : String),
      cmapGet (readLoop conn ro (ro.map (fun kv => f kv.1)) res).1 k =
        if k ∈ ro.map Prod.fst then (f k).orElse (fun _ => cmapGet res k)
        else cmapGet res k := by
  induction ro with
  | nil => intro res k; simp [readLoop]
  | cons kv rest ih =>
    intro res k
    obtain ⟨key, v⟩ := kv
    simp only [readLoop, List.map_cons, List.head?_cons, List.tail_cons]
    rw [ih]
    by_cases hk : key = k
    · subst hk
      cases hf : f key with
      | none => simp [hf]
      | some s => simp [hf, cmapGet_cmapSet_self]
    · have hk' : ¬ k = key := fun h => hk h.symm
      have hiff : k ∈ key :: List.map Prod.fst rest ↔ k ∈ List.map Prod.fst rest := by
        rw [List.mem_cons]
        exact ⟨fun h => h.resolve_left hk', Or.inr⟩
      cases hf : f key with
      | none =>
        dsimp only
        exact if_congr hiff.symm rfl rfl
      | some s =>
        dsimp only
        rw [cmapGet_cmapSet_ne _ _ _ _ hk]
        exact if_congr hiff.symm rfl rfl

theorem SetexMultiple_same_order (w : World) (dbname : String)
    (data : List (String × String)) (expired : Int) (b : Batch) (conn : Nat)
    (hconn : (getConnection w dbname b.link).1 = some conn)
    (hsame : b.readOrder = b.writeOrder) (hread : b.readOrder.Perm data) (k : String) :
    cmapGet (SetexMultiple w dbname data expired b).1.1 k =
      if k ∈ data.map Prod.fst then b.replyTo k else none := by
  simp only [SetexMultiple, hconn]
  rw [← hsame, readLoop_same_order conn b.replyTo b.readOrder [] k]
  have hmem : k ∈ b.readOrder.map Prod.fst ↔ k ∈ data.map Prod.fst :=
    (hread.map Prod.fst).mem_iff
  by_cases h : k ∈ data.map Prod.fst
  · rw [if_pos (hmem.mpr h), if_pos h]
    cases b.replyTo k <;> simp [cmapGet]
  · rw [if_neg (fun h' => h (hmem.mp h')), if_neg h]
    rfl

/-! # The claims -/

/-- C1, as amended: in every state reached from `init()` by calls of the package, a
`getConnection` call that the breaker lets through is recorded
as a failure exactly when the acquire body returns an error, that is when no
pool is registered for the name or when, after a failed PING, the host config
is missing or closing the old pool fails; a failed PING followed by a
successful rebuild is recorded as a success. After ten consecutive calls whose
acquire bodies return an error, starting from a closed breaker that has counted
no failure, the breaker is open, and the next call inside the cooldown window
returns the nil connection and leaves the state, trace included, unchanged. -/
theorem breaker_counts_acquire_errors (w : World) (dbname : String) (ls : List Link)
    (last next : Link) (calls : List Call) (hw : w = runCalls World.init calls)
    (hclosed : (ensureBreaker w dbname).1.state = .closed)
    (hzero : (ensureBreaker w dbname).1.errors = 0)
    (hlen : ls.length = 9)
    (hfail : allBodiesFail w dbname (ls ++ [last]) = true)
    (hcool : next.now < last.now + 10 * Second) :
    (∀ (v : World) (l : Link), ((ensureBreaker v dbname).1.observe l.now).state ≠ .open →
      (ensureBreaker (getConnection v dbname l).2 dbname).1 =
        ((ensureBreaker v dbname).1.observe l.now).processResult l.now
          (acquire v dbname l).1.isNone) ∧
    (∀ (v : World) (l : Link), (acquire v dbname l).1.isSome ↔
      (cmapGet v.DBs dbname = none ∨
        (l.pingErr ≠ none ∧ (cmapGet v.hosts dbname = none ∨ l.poolCloseErr ≠ none)))) ∧
    (∃ cb : Breaker,
      cmapGet (getConnections w dbname (ls ++ [last])).breakerCmap dbname = some cb ∧
      cb.state = .open ∧ cb.trippedAt = last.now) ∧
    getConnection (getConnections w dbname (ls ++ [last])) dbname next =
      (none, getConnections w dbname (ls ++ [last])) := by
  have hp := ensureBreaker_params w dbname
    (by rw [hw]; exact breakersAsConstructed_runCalls calls _ breakersAsConstructed_init)
  have htrip := ten_failures_trip w dbname ls last hclosed hzero hp.1 hlen hfail
  refine ⟨fun v l h => getConnection_records v dbname l h,
    fun v l => acquire_error_iff v dbname l, ⟨_, htrip, rfl, rfl⟩, ?_⟩
  refine getConnection_of_open_cooling _ dbname next _ htrip rfl ?_
  simp only [Breaker.changeState]
  rw [hp.2.2]
  exact hcool

theorem breaker_counts_acquire_errors_witness :
    allBodiesFail registeredLocal "redis-local"
        (List.replicate 9 (linkStuck 0) ++ [linkStuck 3]) = true ∧
      getConnection
          (getConnections registeredLocal "redis-local"
            (List.replicate 9 (linkStuck 0) ++ [linkStuck 3]))
          "redis-local" (linkUp 4) =
        (none, getConnections registeredLocal "redis-local"
          (List.replicate 9 (linkStuck 0) ++ [linkStuck 3])) :=
  ⟨by decide,
    (breaker_counts_acquire_errors registeredLocal "redis-local" (List.replicate 9 (linkStuck 0))
      (linkStuck 3) (linkUp 4) [Call.New "redis-local" "127.0.0.1:6379" "tcp" []] rfl
      (by decide) (by decide) (by decide) (by decide) (by decide)).2.2.2⟩

/-- C1 fails as stated: after ten consecutive `getConnection` calls on a registered
host whose PING failed each time, the breaker is still closed with no failure
counted, and the next call borrows from the pool and returns a connection. -/
theorem failed_probes_leave_breaker_closed :
    cmapGet tenFailedProbes.breakerCmap "redis-local" = some (Breaker.New 10 2 (10 * Second)) ∧
    (Breaker.New 10 2 (10 * Second)).state = .closed ∧
    (getConnection tenFailedProbes "redis-local" (linkDown 1)).1 = some 21 ∧
    (getConnection tenFailedProbes "redis-local" (linkDown 1)).2.trace =
      tenFailedProbes.trace ++
        [.poolGet 10 20, .connDo 20 "PING" [], .connClose 20, .poolClose 10,
         .poolGet 11 21] := by
  decide

/-- C2: while the breaker of a host is open and its cooldown has not elapsed, the
breaker does not run the work it is given, `getConnection` returns the nil
connection and leaves the whole state (pools, host configs, trace of calls)
as it was, `Setex` returns the empty string with an error and `SetexMultiple`
returns the empty map with an error. -/
theorem getConnection_fails_fast_while_open (w : World) (dbname : String) (l : Link)
    (cb : Breaker) (hcb : cmapGet w.breakerCmap dbname = some cb)
    (hopen : cb.state = .open) (hcool : l.now < cb.trippedAt + cb.timeout) :
    (∀ (work : Option Nat × World → Option Error × (Option Nat × World))
        (s : Option Nat × World), cb.Run l.now work s = (some .ErrBreakerOpen, cb, s)) ∧
    getConnection w dbname l = (none, w) ∧
    (∀ (key value : String) (expired : Int) (reply : Except String String),
      Setex w dbname key value expired l reply =
        (("", some (.failedToObtain dbname key)), w)) ∧
    (∀ (data : List (String × String)) (expired : Int) (b : Batch), b.link = l →
      SetexMultiple w dbname data expired b =
        (([], some (.failedToObtainBatch dbname data)), w)) := by
  have hobs : cb.observe l.now = cb := Breaker.observe_of_cooling cb l.now hcool
  have hg : getConnection w dbname l = (none, w) :=
    getConnection_of_open_cooling w dbname l cb hcb hopen hcool
  refine ⟨?_, hg, ?_, ?_⟩
  · intro work s
    have h := Breaker.Run_open cb l.now work s (by rw [hobs]; exact hopen)
    rw [hobs] at h
    exact h
  · intro key value expired reply
    simp [Setex, hg]
  · intro data expired b hb
    subst hb
    simp [SetexMultiple, hg]

theorem getConnection_fails_fast_while_open_witness :
    cmapGet trippedThenRegistered.breakerCmap "redis-local" =
        some { Breaker.New 10 2 (10 * Second) with state := .open } ∧
      getConnection trippedThenRegistered "redis-local" (linkUp 5) =
        (none, trippedThenRegistered) :=
  ⟨by decide,
    (getConnection_fails_fast_while_open trippedThenRegistered "redis-local" (linkUp 5)
      { Breaker.New 10 2 (10 * Second) with state := .open }
      (by decide) (by decide) (by decide)).2.1⟩

/-- C3, as amended: in every state reached from `init()` by calls of the package, the
breaker of a host is the one `getConnection` stores on first use,
`breaker.New(10, 2, 10*time.Second)`, so its success threshold is 2. Once
it has tripped and the cooldown has elapsed, a call whose acquire body returns
no error (a successful PING, or a failed PING followed by a successful
rebuild) leaves it half-open with one success counted, and the second
consecutive such call closes it; a call whose acquire body returns an error
re-opens it with a cooldown that starts at that call, during which the next
call is rejected. -/
theorem halfOpen_trial (w : World) (dbname : String) (l l2 : Link) (cb : Breaker)
    (calls : List Call) (hw : w = runCalls World.init calls)
    (hcb : cmapGet w.breakerCmap dbname = some cb)
    (hopen : cb.state = .open) (helapsed : cb.trippedAt + cb.timeout ≤ l.now) :
    (cb.errorThreshold = 10 ∧ cb.successThreshold = 2 ∧ cb.timeout = 10 * Second) ∧
    (∀ v : World, cmapGet v.breakerCmap dbname = none →
      (ensureBreaker v dbname).1 = Breaker.New 10 2 (10 * Second) ∧
      cmapGet (ensureBreaker v dbname).2.breakerCmap dbname =
        some (Breaker.New 10 2 (10 * Second))) ∧
    ((acquire w dbname l).1 = none →
      cmapGet (getConnection w dbname l).2.breakerCmap dbname =
        some { cb.changeState .halfOpen with successes := 1 } ∧
      ((acquire (getConnection w dbname l).2 dbname l2).1 = none →
        cmapGet (getConnection (getConnection w dbname l).2 dbname l2).2.breakerCmap dbname =
          some (cb.changeState .closed))) ∧
    ((acquire w dbname l).1 ≠ none →
      cmapGet (getConnection w dbname l).2.breakerCmap dbname =
        some { cb.changeState .open with trippedAt := l.now } ∧
      (l2.now < l.now + 10 * Second →
        getConnection (getConnection w dbname l).2 dbname l2 =
          (none, (getConnection w dbname l).2))) := by
  have hp : cb.errorThreshold = 10 ∧ cb.successThreshold = 2 ∧ cb.timeout = 10 * Second := by
    have hall : BreakersAsConstructed w := by
      rw [hw]; exact breakersAsConstructed_runCalls calls _ breakersAsConstructed_init
    exact hall dbname cb hcb
  have hens : (ensureBreaker w dbname).1 = cb := ensureBreaker_fst_of_get w dbname cb hcb
  have hobs : cb.observe l.now = cb.changeState .halfOpen :=
    Breaker.observe_of_elapsed cb l.now hopen helapsed
  have hst : ((ensureBreaker w dbname).1.observe l.now).state ≠ .open := by
    rw [hens, hobs]; simp [Breaker.changeState]
  have hb := getConnection_breaker w dbname l
  rw [if_neg hst, hens, hobs] at hb
  refine ⟨hp, ?_, ?_, ?_⟩
  · intro v hv
    have h := ensureBreaker_get v dbname
    rw [ensureBreaker_of_none v dbname hv] at h ⊢
    exact ⟨rfl, h⟩
  · intro hok
    rw [hok] at hb
    have h1 : (cb.changeState .halfOpen).processResult l.now (none : Option Error).isNone =
        { cb.changeState .halfOpen with successes := 1 } := by
      have := Breaker.processResult_ok_halfOpen (cb.changeState .halfOpen) l.now rfl
        (by simp only [Breaker.changeState]; rw [hp.2.1]; decide)
      simpa [Breaker.changeState] using this
    rw [h1] at hb
    refine ⟨hb, ?_⟩
    intro hok2
    have hb2 := getConnection_breaker (getConnection w dbname l).2 dbname l2
    have hens2 := ensureBreaker_fst_of_get _ dbname _ hb
    have hobs2 := Breaker.observe_of_not_open
      ({ cb.changeState .halfOpen with successes := 1 } : Breaker) l2.now
      (by simp [Breaker.changeState])
    rw [hens2, hobs2, if_neg (by simp [Breaker.changeState]), hok2] at hb2
    rw [hb2]
    have := Breaker.processResult_ok_halfOpen_close
      ({ cb.changeState .halfOpen with successes := 1 } : Breaker) l2.now rfl
      (by simp only [Breaker.changeState]; rw [hp.2.1])
    simpa [Breaker.changeState] using this
  · intro herr
    have hnone : (acquire w dbname l).1.isNone = false := by
      cases h : (acquire w dbname l).1 with
      | none => exact absurd h herr
      | some e => rfl
    rw [hnone, Breaker.processResult_fail_halfOpen _ _ rfl] at hb
    have hb' : cmapGet (getConnection w dbname l).2.breakerCmap dbname =
        some { cb.changeState .open with trippedAt := l.now } := by
      rw [hb]; simp [Breaker.changeState]
    refine ⟨hb', ?_⟩
    intro hcool
    refine getConnection_of_open_cooling _ dbname l2 _ hb' rfl ?_
    simp only [Breaker.changeState]
    rw [hp.2.2]
    exact hcool

theorem halfOpen_trial_witness :
    cmapGet trippedThenRegistered.breakerCmap "redis-local" =
        some { Breaker.New 10 2 (10 * Second) with state := .open } ∧
      (acquire trippedThenRegistered "redis-local" (linkUp (11 * Second))).1 = none ∧
      (cmapGet (getConnection trippedThenRegistered "redis-local"
          (linkUp (11 * Second))).2.breakerCmap "redis-local" =
        some { (({ Breaker.New 10 2 (10 * Second) with state := .open } : Breaker).changeState
                  .halfOpen) with successes := 1 }) :=
  ⟨by decide, by decide,
    ((halfOpen_trial trippedThenRegistered "redis-local" (linkUp (11 * Second))
      (linkUp (11 * Second)) { Breaker.New 10 2 (10 * Second) with state := .open }
      (List.replicate 10 (Call.GetConnection "redis-local" (linkUp 0)) ++
        [Call.New "redis-local" "127.0.0.1:6379" "tcp" []]) rfl
      (by decide) (by decide) (by decide)).2.2.1 (by decide)).1⟩

/-- C3 fails as stated: on a host whose breaker has tripped and whose cooldown has
elapsed, the first call whose PING succeeds returns the connection but leaves
the breaker half-open, not closed; and a call whose PING fails, the rebuild
succeeding, leaves it half-open as well, not open. -/
theorem first_success_does_not_close :
    (cmapGet trippedThenRegistered.breakerCmap "redis-local").map Breaker.state =
      some .open ∧
    (getConnection trippedThenRegistered "redis-local" (linkUp (11 * Second))).1 = some 0 ∧
    (cmapGet (getConnection trippedThenRegistered "redis-local"
        (linkUp (11 * Second))).2.breakerCmap "redis-local").map Breaker.state =
      some .halfOpen ∧
    (cmapGet (getConnection trippedThenRegistered "redis-local"
        (linkDown (11 * Second))).2.breakerCmap "redis-local").map Breaker.state =
      some .halfOpen := by
  decide

/-- C4 at the failing input: the write loop enumerates `a, b`, the read loop `b, a`, the
reply to the request of `a` does not decode and the reply to the request of `b`
is `OK`. The call returns the map with the single key `a`, bound to the reply
of `b`, and no error: the key whose reply was corrupted is present and the key
whose reply decoded is absent. -/
theorem SetexMultiple_crossed_orders :
    crossedBatch.replyTo "a" = none ∧ crossedBatch.replyTo "b" = some "OK" ∧
    (SetexMultiple registeredLocal "redis-local" [("a", "1"), ("b", "2")] 10 crossedBatch).1 =
      ([("a", "OK")], none) := by
  decide

/-- C5: `SetexMultiple` returns an error exactly when `getConnection` returned the nil
connection, and then the returned map is empty; with a connection the error is
nil whatever the replies are; every key of the returned map is a key of the
input map. -/
theorem SetexMultiple_error_iff (w : World) (dbname : String) (data : List (String × String))
    (expired : Int) (b : Batch) (hread : b.readOrder.Perm data) :
    ((SetexMultiple w dbname data expired b).1.2 ≠ none ↔
      (getConnection w dbname b.link).1 = none) ∧
    ((getConnection w dbname b.link).1 = none →
      (SetexMultiple w dbname data expired b).1.1 = []) ∧
    ((getConnection w dbname b.link).1 ≠ none →
      (SetexMultiple w dbname data expired b).1.2 = none) ∧
    (∀ k : String, (cmapGet (SetexMultiple w dbname data expired b).1.1 k).isSome →
      k ∈ data.map Prod.fst) := by
  cases hg : (getConnection w dbname b.link).1 with
  | none =>
    simp [SetexMultiple, hg, cmapGet]
  | some conn =>
    simp only [SetexMultiple, hg]
    refine ⟨by simp, by simp, by simp, ?_⟩
    intro k hk
    rcases readLoop_keys conn b.readOrder _ [] k hk with h | h
    · simp [cmapGet] at h
    · exact (hread.map Prod.fst).mem_iff.mp h

theorem SetexMultiple_error_iff_witness :
    ((SetexMultiple (New World.init "h" "a" "tcp" []) "h" [("a", "1"), ("b", "2")] 10
        { link := { now := 0, pingErr := none, poolCloseErr := none },
          writeOrder := [("a", "1"), ("b", "2")], readOrder := [("b", "2"), ("a", "1")],
          replyTo := fun _ => none }).1.2 ≠ none ↔
      (getConnection (New World.init "h" "a" "tcp" []) "h"
        { now := 0, pingErr := none, poolCloseErr := none }).1 = none) :=
  (SetexMultiple_error_iff (New World.init "h" "a" "tcp" []) "h" [("a", "1"), ("b", "2")] 10
    { link := { now := 0, pingErr := none, poolCloseErr := none },
      writeOrder := [("a", "1"), ("b", "2")], readOrder := [("b", "2"), ("a", "1")],
      replyTo := fun _ => none }
    (by decide)).1

/-- C6: on an acquired connection `SetexMultiple` appends to the trace, in this order,
one `Send` of `SETEX key value decimal(ttl)` per entry of the input map, one
`Flush`, as many `Receive` as the map has entries, and one `Close`, whatever
the replies are; nothing else of the state changes. -/
theorem SetexMultiple_trace (w : World) (dbname : String) (data : List (String × String))
    (expired : Int) (b : Batch) (conn : Nat)
    (hconn : (getConnection w dbname b.link).1 = some conn)
    (hwrite : b.writeOrder.Perm data) (hread : b.readOrder.Perm data) :
    ∃ sends : List Event,
      sends.Perm
        (data.map (fun kv => Event.connSend conn "SETEX" [kv.1, kv.2, toString expired])) ∧
      sends.length = data.length ∧
      (SetexMultiple w dbname data expired b).2 =
        { (getConnection w dbname b.link).2 with
          trace := (getConnection w dbname b.link).2.trace ++ sends ++ [.connFlush conn] ++
            List.replicate data.length (Event.connReceive conn) ++ [.connClose conn] } := by
  refine ⟨writeLoop conn (toString expired) b.writeOrder, ?_, ?_, ?_⟩
  · rw [writeLoop_eq_map]
    exact hwrite.map _
  · rw [writeLoop_eq_map, List.length_map]
    exact hwrite.length_eq
  · simp only [SetexMultiple, hconn]
    rw [readLoop_events, hread.length_eq]

theorem SetexMultiple_trace_witness :
    ∃ sends : List Event,
      sends.Perm
        ([("a", "1"), ("b", "2")].map
          (fun kv => Event.connSend 0 "SETEX" [kv.1, kv.2, toString (10 : Int)])) ∧
      sends.length = 2 ∧
      (SetexMultiple (New World.init "h" "a" "tcp" []) "h" [("a", "1"), ("b", "2")] 10
        { link := { now := 0, pingErr := none, poolCloseErr := none },
          writeOrder := [("b", "2"), ("a", "1")], readOrder := [("a", "1"), ("b", "2")],
          replyTo := fun _ => none }).2 =
        { (getConnection (New World.init "h" "a" "tcp" []) "h"
            { now := 0, pingErr := none, poolCloseErr := none }).2 with
          trace := (getConnection (New World.init "h" "a" "tcp" []) "h"
            { now := 0, pingErr := none, poolCloseErr := none }).2.trace ++ sends ++
              [.connFlush 0] ++ List.replicate 2 (Event.connReceive 0) ++ [.connClose 0] } :=
  SetexMultiple_trace (New World.init "h" "a" "tcp" []) "h" [("a", "1"), ("b", "2")] 10
    { link := { now := 0, pingErr := none, poolCloseErr := none },
      writeOrder := [("b", "2"), ("a", "1")], readOrder := [("a", "1"), ("b", "2")],
      replyTo := fun _ => none } 0 (by decide) (by decide) (by decide)

/-- C7 at the failing inputs: the PING fails and the acquire body returns an error,
because the host config is missing (first input) or because closing the old
pool fails (second input); `getConnection` still returns the connection it had
borrowed and closed, and `Setex` issues its SETEX on it. -/
theorem Setex_after_failed_acquire :
    (acquire poolWithoutConfig "redis-local" (linkDown 0)).1 =
      some (.noConnectionInfo "redis-local") ∧
    (getConnection poolWithoutConfig "redis-local" (linkDown 0)).1 = some 0 ∧
    (Setex poolWithoutConfig "redis-local" "k" "v" 10 (linkDown 0)
        (.error "redigo: connection closed")).2.trace =
      [.poolGet 0 0, .connDo 0 "PING" [], .connClose 0,
       .connDo 0 "SETEX" ["k", "v", "10"], .connClose 0] ∧
    (acquire registeredLocal "redis-local" (linkStuck 0)).1 =
      some (.poolClose "close failed") ∧
    (getConnection registeredLocal "redis-local" (linkStuck 0)).1 = some 0 ∧
    (Setex registeredLocal "redis-local" "k" "v" 10 (linkStuck 0)
        (.error "redigo: connection closed")).2.trace =
      [.poolGet 0 0, .connDo 0 "PING" [], .connClose 0, .poolClose 0,
       .connDo 0 "SETEX" ["k", "v", "10"], .connClose 0] := by
  decide

/-- C8 at the failing inputs: with the options omitted, and with options whose `Wait` is
false, the stored host config has `Wait` true; the other fields are the
registered ones. -/
theorem New_stores_Wait_true :
    cmapGet (New World.init "redis-local" "127.0.0.1:6379" "tcp" []).hosts "redis-local" =
      some { Address := "127.0.0.1:6379", Network := "tcp",
             Option := { MaxIdleConn := 10, MaxActiveConn := 1000, Timeout := 1,
                         Wait := true } } ∧
    cmapGet (New World.init "redis-local" "127.0.0.1:6379" "tcp"
        [{ MaxIdleConn := 5, MaxActiveConn := 50, Timeout := 3, Wait := false }]).hosts
        "redis-local" =
      some { Address := "127.0.0.1:6379", Network := "tcp",
             Option := { MaxIdleConn := 5, MaxActiveConn := 50, Timeout := 3,
                         Wait := true } } := by
  decide

/-- C9: after a registration through `New` and any further calls that do not register
the same name again, a `getConnection` call that the breaker lets through,
whose PING fails and whose old pool closes without error, closes the borrowed
connection and the old pool, installs as the current pool of the host one new
pool equal to the pool `New` built (MaxIdle, MaxActive, IdleTimeout, dial
network and address), and returns a connection borrowed from the new pool
with no further PING. -/
theorem rebuild_uses_registration (w0 w : World) (hostName hostAddress network : String)
    (customOption : List Options) (calls : List Call) (l : Link)
    (hw : w = runCalls (New w0 hostName hostAddress network customOption) calls)
    (hcalls : ∀ c ∈ calls, Call.registers hostName c = false)
    (hrun : ((ensureBreaker w hostName).1.observe l.now).state ≠ .open)
    (hping : l.pingErr ≠ none) (hclose : l.poolCloseErr = none) :
    ∃ (old : Nat) (pool : RedigoPool),
      cmapGet w.DBs hostName = some old ∧
      (New w0 hostName hostAddress network customOption).pools[w0.pools.length]? = some pool ∧
      (getConnection w hostName l).1 = some (w.conns + 1) ∧
      (getConnection w hostName l).2.trace =
        w.trace ++ [.poolGet old w.conns, .connDo w.conns "PING" [], .connClose w.conns,
                    .poolClose old, .poolGet w.pools.length (w.conns + 1)] ∧
      (getConnection w hostName l).2.pools = w.pools ++ [pool] ∧
      cmapGet (getConnection w hostName l).2.DBs hostName = some w.pools.length ∧
      (getConnection w hostName l).2.hosts = w.hosts := by
  obtain ⟨cfg, hin, hpool⟩ := inForce_New w0 hostName hostAddress network customOption
  have hinw : inForce w hostName cfg := by
    rw [hw]; exact inForce_runCalls hostName cfg calls _ hcalls hin
  obtain ⟨hcfg, hdb⟩ := hinw
  cases hold : cmapGet w.DBs hostName with
  | none => rw [hold] at hdb; simp at hdb
  | some old =>
    cases hp : l.pingErr with
    | none => exact absurd hp hping
    | some e =>
      have ha := acquire_rebuild w hostName l old e cfg hold hp hcfg hclose
      refine ⟨old, _, rfl, hpool, ?_, ?_, ?_, ?_, ?_⟩
      · rw [getConnection_run w hostName l hrun, ha]
      · rw [getConnection_run w hostName l hrun, ha]
      · rw [getConnection_run w hostName l hrun, ha]
      · rw [getConnection_run w hostName l hrun, ha]
        exact cmapGet_cmapSet_self _ _ _
      · exact getConnection_hosts w hostName l

theorem rebuild_uses_registration_witness :
    (getConnection
        (runCalls (New World.init "redis-local" "127.0.0.1:6379" "tcp"
            [{ MaxIdleConn := 10, MaxActiveConn := 100, Timeout := 3, Wait := true }])
          [Call.GetConnection "redis-local" (linkUp 0), Call.New "other" "10.0.0.2:6379" "tcp" []])
        "redis-local" (linkDown 1)).2.pools =
      (runCalls (New World.init "redis-local" "127.0.0.1:6379" "tcp"
            [{ MaxIdleConn := 10, MaxActiveConn := 100, Timeout := 3, Wait := true }])
          [Call.GetConnection "redis-local" (linkUp 0),
           Call.New "other" "10.0.0.2:6379" "tcp" []]).pools ++
        [{ MaxIdle := 10, MaxActive := 100, IdleTimeout := 3000000000,
           dialNetwork := "tcp", dialAddress := "127.0.0.1:6379" }] := by
  obtain ⟨old, pool, _, hpool, _, _, hpools, _, _⟩ :=
    rebuild_uses_registration World.init _ "redis-local" "127.0.0.1:6379" "tcp"
      [{ MaxIdleConn := 10, MaxActiveConn := 100, Timeout := 3, Wait := true }]
      [Call.GetConnection "redis-local" (linkUp 0), Call.New "other" "10.0.0.2:6379" "tcp" []]
      (linkDown 1) rfl (by decide) (by decide) (by decide) (by decide)
  rw [hpools]
  have : pool = { MaxIdle := 10, MaxActive := 100, IdleTimeout := 3000000000,
                  dialNetwork := "tcp", dialAddress := "127.0.0.1:6379" } := by
    have h2 : (New World.init "redis-local" "127.0.0.1:6379" "tcp"
        [{ MaxIdleConn := 10, MaxActiveConn := 100, Timeout := 3, Wait := true }]).pools[
          World.init.pools.length]? =
        some { MaxIdle := 10, MaxActive := 100, IdleTimeout := 3000000000,
               dialNetwork := "tcp", dialAddress := "127.0.0.1:6379" } := by decide
    rw [h2] at hpool
    exact (Option.some.inj hpool).symm
  rw [this]

/-- C10: for a registered host whose breaker is closed (or not created yet) and whose
probe succeeds, `getConnection` borrows one connection from the current pool,
issues one PING on it and returns it, with no close of a connection or of a
pool; the success is recorded and the breaker stays closed; the pool registry,
the pools and the host configs are unchanged. -/
theorem getConnection_healthy (w : World) (dbname : String) (l : Link) (p : Nat)
    (hreg : cmapGet w.DBs dbname = some p)
    (hclosed : (ensureBreaker w dbname).1.state = .closed)
    (hping : l.pingErr = none) :
    (getConnection w dbname l).1 = some w.conns ∧
    (getConnection w dbname l).2.trace =
      w.trace ++ [.poolGet p w.conns, .connDo w.conns "PING" []] ∧
    cmapGet (getConnection w dbname l).2.breakerCmap dbname =
      some ((ensureBreaker w dbname).1.processResult l.now true) ∧
    ((ensureBreaker w dbname).1.processResult l.now true).state = .closed ∧
    (getConnection w dbname l).2.DBs = w.DBs ∧
    (getConnection w dbname l).2.pools = w.pools ∧
    (getConnection w dbname l).2.hosts = w.hosts := by
  have hne : (ensureBreaker w dbname).1.state ≠ .open := by rw [hclosed]; decide
  have hobs := Breaker.observe_of_not_open (ensureBreaker w dbname).1 l.now hne
  have hrun : ((ensureBreaker w dbname).1.observe l.now).state ≠ .open := by rw [hobs]; exact hne
  have hb := getConnection_breaker w dbname l
  rw [if_neg hrun, hobs, acquire_ping_ok w dbname l p hreg hping] at hb
  rw [getConnection_run w dbname l hrun, acquire_ping_ok w dbname l p hreg hping] at *
  refine ⟨rfl, rfl, hb, ?_, rfl, rfl, rfl⟩
  simp [Breaker.processResult, hclosed]

theorem getConnection_healthy_witness :
    (getConnection (New World.init "redis-local" "127.0.0.1:6379" "tcp" []) "redis-local"
      { now := 0, pingErr := none, poolCloseErr := none }).1 = some 0 :=
  (getConnection_healthy (New World.init "redis-local" "127.0.0.1:6379" "tcp" []) "redis-local"
    { now := 0, pingErr := none, poolCloseErr := none } 0
    (by decide) (by decide) (by decide)).1

end Redispipeline
